import Mathlib

/-!
Verification of the snowfall-canvas particle engine (`src/index.ts`).

The embedding mirrors the TypeScript source.  JavaScript double arithmetic
is idealized: the density model, the pixel-density (dpr) logic and the
adaptive performance controller use exact rationals (`ℚ`, with `Int.floor`
for `Math.floor`); the particle simulation and the sine lookup table use
real numbers (`ℝ`, with `Real.sin` / `Real.pi` for `Math.sin` / `Math.PI`).
`Math.random()` draws are passed in explicitly as parameters assumed to lie
in `[0, 1)`.  The `x | 0` coercion of `fastSin` is modelled as a genuine
truncation to a 32-bit two's-complement integer, and `idx & (T - 1)` as
`idx % 2048` (the two agree on int32 values because `2048` divides `2^32`).
-/

namespace Snowfall

/-! ## Density model and pixel-density scaling (src/index.ts lines 422-439) -/

/-- Source line 35: `const BASE_WIDTH = 1920`. -/
def BASE_WIDTH : ℚ := 1920

/-- Source line 36: `const BASE_HEIGHT = 1080`. -/
def BASE_HEIGHT : ℚ := 1080

/-- Source lines 433-439, `getTargetDpr`.  `rawDpr` stands for the
platform-reported `window.devicePixelRatio`; the `|| 1` fallback maps a
zero reading to 1.  `dprOverride` is the adaptive controller's override
(`null` becomes `none`). -/
def getTargetDpr (dprCap : ℚ) (rawDpr : ℚ) (dprOverride : Option ℚ) : ℚ :=
  let raw := if rawDpr = 0 then 1 else rawDpr
  let base := max 1 raw
  let overridden := match dprOverride with
    | some v => min base v
    | none => base
  min dprCap overridden

/-- Source lines 422-431, `getDensityAdjustedCount`.  The method reads
`this.config.amount`, `this.config.maxParticles` and `this.getTargetDpr()`;
here they are passed as the arguments `amount`, `maxParticles` and `dpr`. -/
def getDensityAdjustedCount (amount : ℚ) (maxParticles : ℤ) (dpr : ℚ)
    (width height : ℚ) : ℤ :=
  if width ≤ 0 ∨ height ≤ 0 then 0
  else
    let baseArea := BASE_WIDTH * BASE_HEIGHT
    let density := amount / baseArea
    let dprFactor := 1 / dpr
    let estimated := ⌊density * width * height * dprFactor⌋
    max 0 (min maxParticles estimated)

/-! ## Adaptive performance controller state (src/index.ts lines 49-76, 166-190, 212-227, 372-400) -/

/-- Configuration fields consumed by the density model and the adaptive
performance controller (a projection of `SnowConfig`, source lines 5-15). -/
structure Config where
  amount : ℚ
  maxParticles : ℤ
  dprCap : ℚ

/-- Mutable instance fields of `SnowfallCanvas` that the resize path and the
adaptive performance controller read and write (source lines 53-76).  The
particle arrays themselves are modelled separately; only their shared
length `particleCount` matters here. -/
structure PerfState where
  width : ℤ
  height : ℤ
  dpr : ℚ
  frameTimeAvg : ℚ
  perfCooldownFrames : ℤ
  dprOverride : Option ℚ
  particleCount : ℤ

/-- Source lines 49-76: the field initializers (`width = 0`, `height = 0`,
`dpr = 1`, `frameTimeAvg = 16`, `perfCooldownFrames = 0`,
`dprOverride = null`, `particleCount = 0`). -/
def initialPerfState : PerfState :=
  { width := 0, height := 0, dpr := 1, frameTimeAvg := 16
    perfCooldownFrames := 0, dprOverride := none, particleCount := 0 }

/-- Source lines 166-190, `resize(width, height, nextCount?)`, restricted to
the fields of `PerfState`.  Canvas-buffer and CSS side effects are outside
the model.  `count` is `nextCount ?? this.particleCount`, resolved at the
call sites.  `reseedParticles(count)` sets `this.particleCount = count`
(source line 230); it runs only under the guard on line 187. -/
def resizeModel (cfg : Config) (rawDpr : ℚ) (s : PerfState)
    (width height : ℚ) (count : ℤ) : PerfState :=
  let normalizedWidth := max 1 ⌊width⌋
  let normalizedHeight := max 1 ⌊height⌋
  let dpr := getTargetDpr cfg.dprCap rawDpr s.dprOverride
  let dimensionsChanged :=
    normalizedWidth ≠ s.width ∨ normalizedHeight ≠ s.height ∨ dpr ≠ s.dpr
  { s with
    width := normalizedWidth
    height := normalizedHeight
    dpr := dpr
    particleCount :=
      if 0 < count ∧ (dimensionsChanged ∨ count ≠ s.particleCount) then count
      else s.particleCount }

/-- Source lines 413-420, `resizeToContainer`: computes the density-adjusted
count for the raw container dimensions and forwards it to `resize`.
(`getDensityAdjustedCount` calls `this.getTargetDpr()`, source line 427.) -/
def resizeToContainerModel (cfg : Config) (rawDpr : ℚ) (s : PerfState)
    (width height : ℚ) : PerfState :=
  let nextCount := getDensityAdjustedCount cfg.amount cfg.maxParticles
    (getTargetDpr cfg.dprCap rawDpr s.dprOverride) width height
  resizeModel cfg rawDpr s width height nextCount

/-- Source lines 372-400, `maybeAdjustPerformance`.  Note the order on lines
385-397: `dprOverride` is assigned before `getDensityAdjustedCount` is
called, so the density query already sees the lowered override. -/
def maybeAdjustPerformance (cfg : Config) (rawDpr : ℚ) (s : PerfState) :
    PerfState :=
  if 0 < s.perfCooldownFrames then
    { s with perfCooldownFrames := s.perfCooldownFrames - 1 }
  else if 22 < s.frameTimeAvg then
    let loweredDpr := max 1 (min s.dpr 1.25)
    let reducedCount := max 200 ⌊(s.particleCount : ℚ) * 0.75⌋
    let needsDprReduce := loweredDpr < s.dprOverride.getD s.dpr
    let needsCountReduce := reducedCount < s.particleCount
    let s1 := if needsDprReduce then { s with dprOverride := some loweredDpr }
      else s
    if needsDprReduce ∨ needsCountReduce then
      let s2 := { s1 with perfCooldownFrames := 90 }
      let nextCount := min reducedCount
        (getDensityAdjustedCount cfg.amount cfg.maxParticles
          (getTargetDpr cfg.dprCap rawDpr s2.dprOverride)
          (s2.width : ℚ) (s2.height : ℚ))
      resizeModel cfg rawDpr s2 (s2.width : ℚ) (s2.height : ℚ) nextCount
    else s1
  else s

/-- Source lines 212-227, the per-frame `loop`, restricted to the perf
state: line 219 updates the moving average of the frame time, and line 224
runs the controller.  `update` and `draw` do not touch these fields. -/
def loopPerf (cfg : Config) (rawDpr : ℚ) (frameMs : ℚ) (s : PerfState) :
    PerfState :=
  maybeAdjustPerformance cfg rawDpr
    { s with frameTimeAvg := s.frameTimeAvg * 0.9 + frameMs * 0.1 }

/-- Source line 216: `dt = Math.min(0.05, frameMs / 1000)` (in `ℝ`, for the
simulation step). -/
noncomputable def loopDt (frameMs : ℝ) : ℝ := min 0.05 (frameMs / 1000)

/-! ## Fast trigonometry table (src/index.ts lines 35-43, 343-353) -/

/-- Source line 37: `const TWO_PI = Math.PI * 2`. -/
noncomputable def TWO_PI : ℝ := Real.pi * 2

/-- Source line 38: `const SIN_TABLE_SIZE = 2048`. -/
def SIN_TABLE_SIZE : ℕ := 2048

/-- Source lines 39-43: `SIN_TABLE[i] = Math.sin((i / SIN_TABLE_SIZE) * TWO_PI)`
(Float32 storage idealized as `ℝ`). -/
noncomputable def SIN_TABLE (i : ℕ) : ℝ :=
  Real.sin ((i : ℝ) / (SIN_TABLE_SIZE : ℝ) * TWO_PI)

/-- Truncation toward zero, the integer part of JavaScript's `ToInt32`
before wrapping. -/
noncomputable def jsTrunc (x : ℝ) : ℤ := if 0 ≤ x then ⌊x⌋ else -⌊-x⌋

/-- JavaScript's `x | 0`: truncate toward zero, then wrap into a signed
32-bit two's-complement integer (`Int.bmod _ (2^32)` lands in
`[-2^31, 2^31)`). -/
noncomputable def toInt32 (x : ℝ) : ℤ := Int.bmod (jsTrunc x) (2 ^ 32)

/-- Source lines 343-353, `fastSin`.  `idx & (SIN_TABLE_SIZE - 1)` and
`(idx + 1) & (SIN_TABLE_SIZE - 1)` are the masks of int32 values by 2047;
because `2048` divides `2^32` they equal the nonnegative residues
`idx % 2048` and `(idx + 1) % 2048`. -/
noncomputable def fastSin (x : ℝ) : ℝ :=
  let norm := if x < 0 then x + TWO_PI else x
  let scaled := norm * ((SIN_TABLE_SIZE : ℝ) / TWO_PI)
  let idx := toInt32 scaled
  let next := (idx + 1) % 2048
  let frac := scaled - (idx : ℝ)
  let a := SIN_TABLE (idx % 2048).toNat
  let b := SIN_TABLE next.toNat
  a + (b - a) * frac

/-- Modelled from the spec (§4.1 / claim C9), for comparison with `fastSin`:
the linear interpolation of `sin` between the two nearest of the 2048
uniformly-spaced table samples, at the input normalized into one period
`[0, 2π)` by a true modulo, with the upper index wrapped modulo 2048. -/
noncomputable def sineInterpNearest (x : ℝ) : ℝ :=
  let xn := x - TWO_PI * (⌊x / TWO_PI⌋ : ℝ)
  let scaled := xn * ((SIN_TABLE_SIZE : ℝ) / TWO_PI)
  let i := ⌊scaled⌋
  let frac := scaled - (i : ℝ)
  let a := SIN_TABLE (i.toNat % 2048)
  let b := SIN_TABLE ((i.toNat + 1) % 2048)
  a + (b - a) * frac

/-! ## Particle store and simulation step (src/index.ts lines 33, 62-70, 250-296) -/

/-- Source line 33: `rand(min, max) = Math.random() * (max - min) + min`;
the `Math.random()` draw is the explicit argument `r`. -/
noncomputable def rand (lo hi r : ℝ) : ℝ := r * (hi - lo) + lo

/-- One slot of the struct-of-arrays particle store (source lines 62-70):
`posX`, `posY`, `originX`, `dx` (the oscillation phase), `size`,
`amplitude`, `velX` (the swing rate) and `velY` (the fall rate). -/
structure Particle where
  posX : ℝ
  posY : ℝ
  originX : ℝ
  dx : ℝ
  size : ℝ
  amplitude : ℝ
  velX : ℝ
  velY : ℝ

/-- Source lines 262-270, `resetTop(i)`: recycle particle `i` to the top
edge.  `rx` and `rp` are the two `Math.random()` draws. -/
noncomputable def resetTop (width rx rp : ℝ) (p : Particle) : Particle :=
  let x := rand 0 width rx
  { p with posY := -p.size, posX := x, originX := x, dx := rand 0 TWO_PI rp }

/-- Source lines 284-295, the body of the `update` loop for one particle
`i`, in source order: fall, advance the phase with a single conditional
`TWO_PI` subtraction, recompute `posX` from the new phase, then the
bottom-edge recycle check on the new `posY`. -/
noncomputable def advanceParticle (dt height width rx rp : ℝ) (p : Particle) :
    Particle :=
  let posY1 := p.posY + p.velY * dt
  let dx1 := p.dx + p.velX * dt
  let dx2 := if TWO_PI < dx1 then dx1 - TWO_PI else dx1
  let posX1 := p.originX + p.amplitude * fastSin dx2
  let p1 : Particle :=
    { p with posY := posY1, dx := dx2, posX := posX1 }
  if height < posY1 - p.size then resetTop width rx rp p1 else p1

/-- Source lines 272-296, `update(dt)`: advance every particle of the store
in index order.  `rnd i` supplies the pair of `Math.random()` draws
consumed if particle `i` recycles; `i` is the index of the head. -/
noncomputable def update (dt height width : ℝ) (rnd : ℕ → ℝ × ℝ) :
    ℕ → List Particle → List Particle
  | _, [] => []
  | i, p :: ps =>
    advanceParticle dt height width (rnd i).1 (rnd i).2 p ::
      update dt height width rnd (i + 1) ps

/-! ## Named forms of the controller's local values (source lines 380-394),
used to state theorems about `maybeAdjustPerformance` -/

/-- Source line 380: `loweredDpr = Math.max(1, Math.min(this.dpr, 1.25))`,
i.e. `clamp(currentScale, 1, 1.25)`. -/
def loweredDpr (s : PerfState) : ℚ := max 1 (min s.dpr 1.25)

/-- Source line 381: `reducedCount = Math.max(200, Math.floor(this.particleCount * 0.75))`. -/
def reducedCount (s : PerfState) : ℤ := max 200 ⌊(s.particleCount : ℚ) * 0.75⌋

/-- Source line 382: `needsDprReduce = loweredDpr < (this.dprOverride ?? this.dpr)`. -/
abbrev needsDprReduce (s : PerfState) : Prop :=
  loweredDpr s < s.dprOverride.getD s.dpr

/-- Source line 383: `needsCountReduce = reducedCount < this.particleCount`. -/
abbrev needsCountReduce (s : PerfState) : Prop :=
  reducedCount s < s.particleCount

/-- Source lines 392-395: the count passed to `resize` by the controller,
`Math.min(reducedCount, this.getDensityAdjustedCount(...))`, evaluated
after the `dprOverride` assignment of line 386. -/
def nextCount (cfg : Config) (rawDpr : ℚ) (s : PerfState) : ℤ :=
  min (reducedCount s)
    (getDensityAdjustedCount cfg.amount cfg.maxParticles
      (getTargetDpr cfg.dprCap rawDpr
        (if needsDprReduce s then some (loweredDpr s) else s.dprOverride))
      (s.width : ℚ) (s.height : ℚ))

/-! ## Demonstration constants used by witnesses and counterexamples -/

/-- Default `amount`, `maxParticles` and `dprCap` (source lines 19-29). -/
def cfgDemo : Config := { amount := 5000, maxParticles := 4000, dprCap := 2 }

/-- A state holding 500 live particles on a tiny 1×1 surface with a slow
frame-time average and no cooldown. -/
def sTinyBusy : PerfState :=
  { width := 1, height := 1, dpr := 1, frameTimeAvg := 30
    perfCooldownFrames := 0, dprOverride := none, particleCount := 500 }

/-- A state holding 500 live particles on an 800×600 surface. -/
def sMidBusy : PerfState :=
  { width := 800, height := 600, dpr := 1, frameTimeAvg := 16
    perfCooldownFrames := 0, dprOverride := none, particleCount := 500 }

/-- A slow state on a device with pixel-density scale 2 and no override. -/
def sHiDpr : PerfState :=
  { width := 800, height := 600, dpr := 2, frameTimeAvg := 30
    perfCooldownFrames := 0, dprOverride := none, particleCount := 100 }

/-! ## Theorems -/

/-- Claim C1: for every `width > 0`, `height > 0`, `amount ≥ 0`,
`maxParticles ≥ 0` and effective density scale `s > 0`, the target particle
count equals `clamp(⌊(amount / (1920·1080)) · width · height · (1/s)⌋, 0,
maxParticles)`; for all inputs `0 ≤ targetCount ≤ maxParticles`; and for
width 1920, height 1080, amount 5000, maxParticles 4000, scale 1 the result
is 4000. -/
theorem C1_density_count_formula (amount : ℚ) (maxParticles : ℤ)
    (s width height : ℚ) (hw : 0 < width) (hh : 0 < height)
    (ha : 0 ≤ amount) (hm : 0 ≤ maxParticles) (hs : 0 < s) :
    getDensityAdjustedCount amount maxParticles s width height =
      max 0 (min maxParticles
        ⌊amount / (1920 * 1080) * width * height * (1 / s)⌋)
    ∧ (∀ a' s' w' h' : ℚ,
        0 ≤ getDensityAdjustedCount a' maxParticles s' w' h'
        ∧ getDensityAdjustedCount a' maxParticles s' w' h' ≤ maxParticles)
    ∧ getDensityAdjustedCount 5000 4000 1 1920 1080 = 4000 := by
  refine ⟨?_, ?_, ?_⟩
  · simp only [getDensityAdjustedCount, BASE_WIDTH, BASE_HEIGHT]
    rw [if_neg]
    push_neg
    exact ⟨hw, hh⟩
  · intro a' s' w' h'
    simp only [getDensityAdjustedCount]
    split
    · omega
    · omega
  · simp only [getDensityAdjustedCount, BASE_WIDTH, BASE_HEIGHT]
    rw [if_neg (by norm_num),
      show (5000 : ℚ) / (1920 * 1080) * 1920 * 1080 * (1 / 1) = ((5000 : ℤ) : ℚ)
        by norm_num,
      Int.floor_intCast]
    omega

/-- Witness for C1 at the spec's example input. -/
theorem C1_density_count_formula_witness :
    getDensityAdjustedCount 5000 4000 1 1920 1080 = 4000 :=
  (C1_density_count_formula 5000 4000 1 1920 1080 (by norm_num) (by norm_num)
    (by norm_num) (by norm_num) (by norm_num)).2.2

/-- Claim C10: for fixed configuration, `targetCount` is non-decreasing in
surface area (same positive effective scale) and non-increasing in the
effective density scale (fixed width and height). -/
theorem C10_density_monotone (amount : ℚ) (maxParticles : ℤ)
    (w1 h1 w2 h2 s width height s1 s2 : ℚ) (ha : 0 ≤ amount)
    (hw1 : 0 < w1) (hh1 : 0 < h1) (hw2 : 0 < w2) (hh2 : 0 < h2)
    (harea : w1 * h1 ≤ w2 * h2) (hs : 0 < s)
    (hw : 0 < width) (hh : 0 < height) (hs1 : 0 < s1) (hs12 : s1 ≤ s2) :
    getDensityAdjustedCount amount maxParticles s w1 h1
      ≤ getDensityAdjustedCount amount maxParticles s w2 h2
    ∧ getDensityAdjustedCount amount maxParticles s2 width height
      ≤ getDensityAdjustedCount amount maxParticles s1 width height := by
  have hs2 : 0 < s2 := lt_of_lt_of_le hs1 hs12
  have hb : (0 : ℚ) < BASE_WIDTH * BASE_HEIGHT := by
    rw [BASE_WIDTH, BASE_HEIGHT]; norm_num
  constructor
  · simp only [getDensityAdjustedCount]
    rw [if_neg (by push_neg; exact ⟨hw1, hh1⟩),
      if_neg (by push_neg; exact ⟨hw2, hh2⟩)]
    have hfl : ⌊amount / (BASE_WIDTH * BASE_HEIGHT) * w1 * h1 * (1 / s)⌋
        ≤ ⌊amount / (BASE_WIDTH * BASE_HEIGHT) * w2 * h2 * (1 / s)⌋ := by
      apply Int.floor_le_floor
      have h1e : amount / (BASE_WIDTH * BASE_HEIGHT) * w1 * h1 * (1 / s)
          = amount / (BASE_WIDTH * BASE_HEIGHT) * (1 / s) * (w1 * h1) := by ring
      have h2e : amount / (BASE_WIDTH * BASE_HEIGHT) * w2 * h2 * (1 / s)
          = amount / (BASE_WIDTH * BASE_HEIGHT) * (1 / s) * (w2 * h2) := by ring
      rw [h1e, h2e]
      apply mul_le_mul_of_nonneg_left harea
      exact mul_nonneg (div_nonneg ha hb.le) (le_of_lt (one_div_pos.mpr hs))
    omega
  · simp only [getDensityAdjustedCount]
    rw [if_neg (by push_neg; exact ⟨hw, hh⟩), if_neg (by push_neg; exact ⟨hw, hh⟩)]
    have hfl : ⌊amount / (BASE_WIDTH * BASE_HEIGHT) * width * height * (1 / s2)⌋
        ≤ ⌊amount / (BASE_WIDTH * BASE_HEIGHT) * width * height * (1 / s1)⌋ := by
      apply Int.floor_le_floor
      have hinv : 1 / s2 ≤ 1 / s1 := one_div_le_one_div_of_le hs1 hs12
      apply mul_le_mul_of_nonneg_left hinv
      exact mul_nonneg (mul_nonneg (div_nonneg ha hb.le) hw.le) hh.le
    omega

/-- Witness for C10: quarter area at scale 1, and scales 1 ≤ 2. -/
theorem C10_density_monotone_witness :
    getDensityAdjustedCount 5000 4000 1 960 540
      ≤ getDensityAdjustedCount 5000 4000 1 1920 1080
    ∧ getDensityAdjustedCount 5000 4000 2 1920 1080
      ≤ getDensityAdjustedCount 5000 4000 1 1920 1080 :=
  C10_density_monotone 5000 4000 960 540 1920 1080 1 1920 1080 1 2
    (by norm_num) (by norm_num) (by norm_num) (by norm_num) (by norm_num)
    (by norm_num) (by norm_num) (by norm_num) (by norm_num) (by norm_num)
    (by norm_num)

/-- Claim C7 fails on the code: on degenerate geometry the density model
does return 0, but `resize` (line 187) only applies a new count when it is
positive, so a previously seeded store keeps its 500 particles and the
per-frame `update` still advances them (here the fall step moves a
particle's `posY` from 0 to 0.5): the simulation is not a no-op. -/
theorem C7_counterexample :
    getDensityAdjustedCount 5000 4000 1 0 600 = 0
    ∧ (resizeToContainerModel cfgDemo 1 sMidBusy 0 600).particleCount = 500
    ∧ (500 : ℤ) ≠ 0
    ∧ (advanceParticle 0.05 600 800 0 0
        { posX := 0, posY := 0, originX := 0, dx := 0, size := 1,
          amplitude := 0, velX := 0, velY := 10 }).posY ≠ 0 := by
  refine ⟨?_, ?_, by decide, ?_⟩
  · simp only [getDensityAdjustedCount]
    rw [if_pos (Or.inl le_rfl)]
  · simp only [resizeToContainerModel, resizeModel, getDensityAdjustedCount,
      cfgDemo, sMidBusy]
    norm_num
  · simp only [advanceParticle]
    have hnorec : ¬ ((600 : ℝ) < 0 + 10 * 0.05 - 1) := by norm_num
    rw [if_neg hnorec]
    norm_num

/-- Claim C7 as amended: when the surface has degenerate geometry
(`width ≤ 0` or `height ≤ 0`), the density model returns 0 particles, but
the resize path does not apply a zero count (the reseed guard requires a
positive count), so the previously seeded particle store is left in place
and the simulation and render steps keep processing it. -/
theorem C7_degenerate_geometry (cfg : Config) (rawDpr dpr : ℚ)
    (s : PerfState) (width height : ℚ) (hdeg : width ≤ 0 ∨ height ≤ 0) :
    getDensityAdjustedCount cfg.amount cfg.maxParticles dpr width height = 0
    ∧ (resizeToContainerModel cfg rawDpr s width height).particleCount
        = s.particleCount := by
  constructor
  · rw [getDensityAdjustedCount, if_pos hdeg]
  · rw [resizeToContainerModel, resizeModel, getDensityAdjustedCount,
      if_pos hdeg]
    simp

/-- Witness for the amended C7 at a zero-width container. -/
theorem C7_degenerate_geometry_witness :
    getDensityAdjustedCount cfgDemo.amount cfgDemo.maxParticles 1 0 600 = 0
    ∧ (resizeToContainerModel cfgDemo 1 sMidBusy 0 600).particleCount
        = sMidBusy.particleCount :=
  C7_degenerate_geometry cfgDemo 1 1 sMidBusy 0 600 (Or.inl le_rfl)

/-- Helper: the particle count after `resize` is the requested count when
it is positive (whether or not the reseed loop actually re-runs), and the
previous count otherwise. -/
lemma resizeModel_particleCount (cfg : Config) (rawDpr : ℚ) (s : PerfState)
    (w h : ℚ) (count : ℤ) :
    (resizeModel cfg rawDpr s w h count).particleCount
      = if 0 < count then count else s.particleCount := by
  simp only [resizeModel]
  split_ifs with hg hp hp
  · rfl
  · exact absurd hg.1 hp
  · exact (not_not.mp fun hne => hg ⟨hp, Or.inr hne⟩).symm
  · rfl

/-- Claim C4 fails on the code in one corner: when the controller decides
to reduce and the density-adjusted target is 0 (here: a 1×1 surface), the
count passed to `resize` is `min(reducedCount, targetCount) = 0`, and the
reseed guard of `resize` (line 187) requires a positive count, so the
particle count is not re-seeded: it stays at 500 instead of the claimed
`min(reducedCount, targetCount)`. -/
theorem C4_counterexample :
    (loopPerf cfgDemo 1 30 sTinyBusy).particleCount = 500
    ∧ nextCount cfgDemo 1 sTinyBusy = 0
    ∧ (500 : ℤ) ≠ 0 := by
  have h375 : ⌊((500 : ℤ) : ℚ) * 0.75⌋ = 375 := by
    rw [show ((500 : ℤ) : ℚ) * 0.75 = ((375 : ℤ) : ℚ) by norm_num,
      Int.floor_intCast]
  have hf : ⌊(25 : ℚ) / 10368⌋ = 0 :=
    Int.floor_eq_zero_iff.mpr (Set.mem_Ico.mpr ⟨by norm_num, by norm_num⟩)
  refine ⟨?_, ?_, by decide⟩
  · simp only [loopPerf, maybeAdjustPerformance, resizeModel, getTargetDpr,
      getDensityAdjustedCount, cfgDemo, sTinyBusy, BASE_WIDTH, BASE_HEIGHT,
      Option.getD_none, h375]
    norm_num [Int.floor_intCast, hf]
  · have hdpr : getTargetDpr 2 1 none = 1 := by norm_num [getTargetDpr]
    simp only [nextCount, reducedCount, needsDprReduce, loweredDpr,
      getDensityAdjustedCount, cfgDemo, sTinyBusy, BASE_WIDTH, BASE_HEIGHT,
      Option.getD_none, h375]
    norm_num [hdpr, hf]

/-- Claim C4 as amended: per tick the controller updates the frame-time
average (seeded at 16 ms) as `avg·0.9 + frameMs·0.1`; in Cooldown it only
decrements the counter; in Stable with `avg ≤ 22` nothing changes; with
`avg > 22` and neither reduction applicable nothing changes; with `avg > 22`
and a reduction applicable it enters Cooldown(90), lowers the scale
override when `loweredScale` decreases it, and re-seeds the particle count
to `n = min(reducedCount, targetCount at the updated override)` only when
`n > 0` — when the density model yields `n = 0` the reseed guard of
`resize` skips the re-seed and the particle count is unchanged. -/
theorem C4_adaptive_controller (cfg : Config) (rawDpr frameMs : ℚ)
    (s : PerfState) :
    initialPerfState.frameTimeAvg = 16
    ∧ (loopPerf cfg rawDpr frameMs s).frameTimeAvg
        = s.frameTimeAvg * 0.9 + frameMs * 0.1
    ∧ (0 < s.perfCooldownFrames →
        loopPerf cfg rawDpr frameMs s
          = { s with frameTimeAvg := s.frameTimeAvg * 0.9 + frameMs * 0.1
                     perfCooldownFrames := s.perfCooldownFrames - 1 })
    ∧ (s.perfCooldownFrames ≤ 0 →
        s.frameTimeAvg * 0.9 + frameMs * 0.1 ≤ 22 →
        loopPerf cfg rawDpr frameMs s
          = { s with frameTimeAvg := s.frameTimeAvg * 0.9 + frameMs * 0.1 })
    ∧ (s.perfCooldownFrames ≤ 0 →
        22 < s.frameTimeAvg * 0.9 + frameMs * 0.1 →
        ¬ needsDprReduce s → ¬ needsCountReduce s →
        loopPerf cfg rawDpr frameMs s
          = { s with frameTimeAvg := s.frameTimeAvg * 0.9 + frameMs * 0.1 })
    ∧ (s.perfCooldownFrames ≤ 0 →
        22 < s.frameTimeAvg * 0.9 + frameMs * 0.1 →
        needsDprReduce s ∨ needsCountReduce s →
        (loopPerf cfg rawDpr frameMs s).perfCooldownFrames = 90
        ∧ (loopPerf cfg rawDpr frameMs s).dprOverride
            = (if needsDprReduce s then some (loweredDpr s) else s.dprOverride)
        ∧ (loopPerf cfg rawDpr frameMs s).particleCount
            = (if 0 < nextCount cfg rawDpr s then nextCount cfg rawDpr s
               else s.particleCount)) := by
  refine ⟨rfl, ?_, ?_, ?_, ?_, ?_⟩
  · simp only [loopPerf, maybeAdjustPerformance, resizeModel]
    split_ifs <;> rfl
  · intro hcd
    simp only [loopPerf, maybeAdjustPerformance]
    rw [if_pos hcd]
  · intro hcd havg
    simp only [loopPerf, maybeAdjustPerformance]
    rw [if_neg (by omega), if_neg (by exact not_lt.mpr havg)]
  · intro hcd havg hnd hnc
    simp only [loopPerf, maybeAdjustPerformance, needsDprReduce,
      needsCountReduce, loweredDpr, reducedCount] at hnd hnc ⊢
    rw [if_neg (by omega), if_pos havg, if_neg hnd, if_neg (by tauto)]
  · intro hcd havg hor
    have hmain : loopPerf cfg rawDpr frameMs s
        = resizeModel cfg rawDpr
            { s with frameTimeAvg := s.frameTimeAvg * 0.9 + frameMs * 0.1
                     perfCooldownFrames := 90
                     dprOverride := if needsDprReduce s then some (loweredDpr s)
                       else s.dprOverride }
            (s.width : ℚ) (s.height : ℚ) (nextCount cfg rawDpr s) := by
      simp only [loopPerf, maybeAdjustPerformance, needsDprReduce,
        needsCountReduce, loweredDpr, reducedCount, nextCount] at hor ⊢
      rw [if_neg (by omega), if_pos havg]
      by_cases hd : max 1 (min s.dpr 1.25) < s.dprOverride.getD s.dpr
      · rw [if_pos hd, if_pos (Or.inl hd), if_pos hd]
      · rw [if_neg hd, if_pos (by tauto), if_neg hd]
    rw [hmain]
    refine ⟨?_, ?_, ?_⟩
    · simp [resizeModel]
    · simp [resizeModel]
    · rw [resizeModel_particleCount]

/-- Witness for the amended C4, at the counterexample state: the apply
branch fires, Cooldown becomes 90, and since the density target is 0 the
count is left at 500. -/
theorem C4_adaptive_controller_witness :
    (loopPerf cfgDemo 1 30 sTinyBusy).perfCooldownFrames = 90
    ∧ (loopPerf cfgDemo 1 30 sTinyBusy).dprOverride = none := by
  have h375R : ⌊(500 : ℚ) * 0.75⌋ = 375 := by
    rw [show (500 : ℚ) * 0.75 = ((375 : ℤ) : ℚ) by norm_num, Int.floor_intCast]
  have hnc : needsCountReduce sTinyBusy := by
    simp only [needsCountReduce, reducedCount, sTinyBusy]
    push_cast
    rw [h375R]
    omega
  have hnd : ¬ needsDprReduce sTinyBusy := by
    simp only [needsDprReduce, loweredDpr, sTinyBusy, Option.getD_none]
    norm_num
  have h := (C4_adaptive_controller cfgDemo 1 30 sTinyBusy).2.2.2.2.2
    (by decide) (by norm_num [sTinyBusy]) (Or.inr hnc)
  refine ⟨h.1, ?_⟩
  rw [h.2.1, if_neg hnd]
  rfl

/-- Helper: `resize` never touches the scale override. -/
lemma resizeModel_dprOverride (cfg : Config) (rawDpr : ℚ) (s : PerfState)
    (w h : ℚ) (count : ℤ) :
    (resizeModel cfg rawDpr s w h count).dprOverride = s.dprOverride := by
  simp [resizeModel]

/-- Order on override states: `OverrideLe a b` says `a` is at least as
throttled as `b` — whenever `b` is an active override `some v`, `a` is an
active override `some w` with `w ≤ v` (so an override is never cleared and
never raised when moving from `b` to `a`). -/
def OverrideLe (a b : Option ℚ) : Prop :=
  ∀ v, b = some v → ∃ w, a = some w ∧ w ≤ v

lemma OverrideLe_rfl (a : Option ℚ) : OverrideLe a a :=
  fun v hv => ⟨v, hv, le_rfl⟩

lemma OverrideLe_trans {a b c : Option ℚ} (hab : OverrideLe a b)
    (hbc : OverrideLe b c) : OverrideLe a c := by
  intro v hv
  obtain ⟨w, hw, hwv⟩ := hbc v hv
  obtain ⟨u, hu, huw⟩ := hab w hw
  exact ⟨u, hu, le_trans huw hwv⟩

/-- Helper: one tick can only throttle the override further. -/
lemma loopPerf_dprOverride_step (cfg : Config) (rawDpr frameMs : ℚ)
    (s : PerfState) :
    OverrideLe (loopPerf cfg rawDpr frameMs s).dprOverride s.dprOverride := by
  simp only [loopPerf, maybeAdjustPerformance]
  by_cases h1 : 0 < s.perfCooldownFrames
  · rw [if_pos h1]
    exact OverrideLe_rfl _
  · rw [if_neg h1]
    by_cases h2 : 22 < s.frameTimeAvg * 0.9 + frameMs * 0.1
    · rw [if_pos h2]
      by_cases hd : max 1 (min s.dpr 1.25) < s.dprOverride.getD s.dpr
      · rw [if_pos hd, if_pos (Or.inl hd), resizeModel_dprOverride]
        intro v hv
        rw [hv, Option.getD_some] at hd
        exact ⟨_, rfl, le_of_lt hd⟩
      · rw [if_neg hd]
        by_cases hc : max 200 ⌊(s.particleCount : ℚ) * 0.75⌋ < s.particleCount
        · rw [if_pos (Or.inr hc), resizeModel_dprOverride]
          exact OverrideLe_rfl _
        · rw [if_neg (by tauto)]
          exact OverrideLe_rfl _
    · rw [if_neg h2]
      exact OverrideLe_rfl _

/-- Helper: across any finite sequence of ticks the override only
ratchets down. -/
lemma loopPerf_fold_ratchet (cfg : Config) (rawDpr : ℚ) (ms : List ℚ)
    (s : PerfState) :
    OverrideLe
      (List.foldl (fun st m => loopPerf cfg rawDpr m st) s ms).dprOverride
      s.dprOverride := by
  induction ms generalizing s with
  | nil => exact OverrideLe_rfl _
  | cons m ms ih =>
    exact OverrideLe_trans (ih (loopPerf cfg rawDpr m s))
      (loopPerf_dprOverride_step cfg rawDpr m s)

/-- Helper: when a tick changes the override it assigns a value strictly
below the current effective value `dprOverride ?? dpr`. -/
lemma loopPerf_dprOverride_strict (cfg : Config) (rawDpr frameMs : ℚ)
    (s : PerfState)
    (hne : (loopPerf cfg rawDpr frameMs s).dprOverride ≠ s.dprOverride) :
    ∃ w, (loopPerf cfg rawDpr frameMs s).dprOverride = some w
      ∧ w < s.dprOverride.getD s.dpr := by
  simp only [loopPerf, maybeAdjustPerformance] at hne ⊢
  by_cases h1 : 0 < s.perfCooldownFrames
  · rw [if_pos h1] at hne
    exact absurd rfl hne
  · rw [if_neg h1] at hne ⊢
    by_cases h2 : 22 < s.frameTimeAvg * 0.9 + frameMs * 0.1
    · rw [if_pos h2] at hne ⊢
      by_cases hd : max 1 (min s.dpr 1.25) < s.dprOverride.getD s.dpr
      · rw [if_pos hd, if_pos (Or.inl hd), resizeModel_dprOverride]
        exact ⟨_, rfl, hd⟩
      · rw [if_neg hd] at hne ⊢
        by_cases hc : max 200 ⌊(s.particleCount : ℚ) * 0.75⌋ < s.particleCount
        · rw [if_pos (Or.inr hc), resizeModel_dprOverride] at hne
          exact absurd rfl hne
        · rw [if_neg (by tauto)] at hne
          exact absurd rfl hne
    · rw [if_neg h2] at hne
      exact absurd rfl hne

/-- Helper: the effective scale is capped by
`min(dprCap, max(1, platform scale))`. -/
lemma getTargetDpr_le (cap raw : ℚ) (ov : Option ℚ) :
    getTargetDpr cap raw ov ≤ min cap (max 1 raw) := by
  simp only [getTargetDpr]
  cases ov with
  | none =>
    apply min_le_min le_rfl
    split_ifs with h
    · subst h; norm_num
    · exact le_rfl
  | some v =>
    apply min_le_min le_rfl
    refine le_trans (min_le_left _ _) ?_
    split_ifs with h
    · subst h; norm_num
    · exact le_rfl

/-- Claim C5: across any sequence of controller evaluations in a session
the scale override is non-increasing (never cleared, never raised); when
it changes it takes a value strictly below the current effective value
`dprOverride ?? dpr`; and the effective density scale never exceeds
`min(config.dprCap, max(1, platform scale))`. -/
theorem C5_scale_ratchet (cfg : Config) (rawDpr : ℚ) (s : PerfState) :
    (∀ ms : List ℚ,
      OverrideLe
        (List.foldl (fun st m => loopPerf cfg rawDpr m st) s ms).dprOverride
        s.dprOverride)
    ∧ (∀ frameMs : ℚ,
        (loopPerf cfg rawDpr frameMs s).dprOverride ≠ s.dprOverride →
        ∃ w, (loopPerf cfg rawDpr frameMs s).dprOverride = some w
          ∧ w < s.dprOverride.getD s.dpr)
    ∧ (∀ cap raw : ℚ, ∀ ov : Option ℚ,
        getTargetDpr cap raw ov ≤ min cap (max 1 raw)) :=
  ⟨fun ms => loopPerf_fold_ratchet cfg rawDpr ms s,
   fun frameMs => loopPerf_dprOverride_strict cfg rawDpr frameMs s,
   fun cap raw ov => getTargetDpr_le cap raw ov⟩

/-- Witness for C5: a slow tick on an un-throttled scale-2 state installs
an override strictly below the effective value 2. -/
theorem C5_scale_ratchet_witness :
    ∃ w, (loopPerf cfgDemo 1 30 sHiDpr).dprOverride = some w
      ∧ w < sHiDpr.dprOverride.getD sHiDpr.dpr := by
  apply (C5_scale_ratchet cfgDemo 1 sHiDpr).2.1 30
  have hcomp : (loopPerf cfgDemo 1 30 sHiDpr).dprOverride = some 1.25 := by
    simp only [loopPerf, maybeAdjustPerformance, sHiDpr, cfgDemo,
      Option.getD_none]
    rw [if_neg (by norm_num), if_pos (by norm_num),
      if_pos (by norm_num : (1 : ℚ) ⊔ 2 ⊓ 1.25 < 2),
      if_pos (Or.inl (by norm_num : (1 : ℚ) ⊔ 2 ⊓ 1.25 < 2)),
      resizeModel_dprOverride]
    norm_num
  rw [hcomp]
  simp [sHiDpr]

/-! ## Simulation-step theorems -/

/-- A particle that falls at 10 units/s from the top of a tall surface. -/
noncomputable def pFallDemo : Particle :=
  { posX := 0, posY := 0, originX := 0, dx := 0, size := 1,
    amplitude := 0, velX := 0, velY := 10 }

/-- The spec's recycle example: `fallRate = 80`, `posY = 1070`, `size = 1`. -/
noncomputable def pRecycleDemo : Particle :=
  { posX := 0, posY := 1070, originX := 0, dx := 0, size := 1,
    amplitude := 0, velX := 0, velY := 80 }

/-- A particle whose phase advances by exactly `2π` in a `dt = 0.05` tick. -/
noncomputable def pPhaseEdge : Particle :=
  { posX := 0, posY := 0, originX := 0, dx := 0, size := 1,
    amplitude := 0, velX := 40 * Real.pi, velY := 0 }

/-- A particle with a small swing rate. -/
noncomputable def pSlowSwing : Particle :=
  { posX := 0, posY := 0, originX := 0, dx := 0, size := 1,
    amplitude := 0, velX := 1, velY := 0 }

/-- Claim C2: the tick uses `dt = min(0.05, frameMs/1000)`; the per-particle
step is, in this order: fall, phase advance with a single conditional `2π`
subtraction, `posX` recomputed from the new phase, then the recycle check
on the new `posY`; and the downward displacement of a tick is at most
`fallRate · 0.05`. -/
theorem C2_advance_order (frameMs height width rx rp : ℝ) (p : Particle)
    (hvy : 0 ≤ p.velY) (hsz : 0 ≤ p.size) (hh : 0 ≤ height) :
    loopDt frameMs = min 0.05 (frameMs / 1000)
    ∧ advanceParticle (loopDt frameMs) height width rx rp p =
        (if height < (p.posY + p.velY * loopDt frameMs) - p.size then
          resetTop width rx rp
            { p with
              posY := p.posY + p.velY * loopDt frameMs
              dx := if TWO_PI < p.dx + p.velX * loopDt frameMs then
                  p.dx + p.velX * loopDt frameMs - TWO_PI
                else p.dx + p.velX * loopDt frameMs
              posX := p.originX + p.amplitude * fastSin
                (if TWO_PI < p.dx + p.velX * loopDt frameMs then
                    p.dx + p.velX * loopDt frameMs - TWO_PI
                  else p.dx + p.velX * loopDt frameMs) }
        else
          { p with
            posY := p.posY + p.velY * loopDt frameMs
            dx := if TWO_PI < p.dx + p.velX * loopDt frameMs then
                p.dx + p.velX * loopDt frameMs - TWO_PI
              else p.dx + p.velX * loopDt frameMs
            posX := p.originX + p.amplitude * fastSin
              (if TWO_PI < p.dx + p.velX * loopDt frameMs then
                  p.dx + p.velX * loopDt frameMs - TWO_PI
                else p.dx + p.velX * loopDt frameMs) })
    ∧ (advanceParticle (loopDt frameMs) height width rx rp p).posY - p.posY
        ≤ p.velY * 0.05 := by
  have hdt05 : loopDt frameMs ≤ 0.05 := min_le_left _ _
  have hmul : p.velY * loopDt frameMs ≤ p.velY * 0.05 :=
    mul_le_mul_of_nonneg_left hdt05 hvy
  refine ⟨rfl, rfl, ?_⟩
  by_cases hrec : height < p.posY + p.velY * loopDt frameMs - p.size
  · simp only [advanceParticle, resetTop, if_pos hrec]
    linarith
  · simp only [advanceParticle, if_neg hrec]
    linarith

/-- Witness for C2: a 16 ms frame moves the demo particle down by at most
`10 · 0.05`. -/
theorem C2_advance_order_witness :
    (advanceParticle (loopDt 16) 600 800 0 0 pFallDemo).posY - pFallDemo.posY
      ≤ pFallDemo.velY * 0.05 :=
  (C2_advance_order 16 600 800 0 0 pFallDemo (by norm_num [pFallDemo])
    (by norm_num [pFallDemo]) (by norm_num)).2.2

/-- Claim C3: a particle whose moved position satisfies
`posY - size > surfaceHeight` is recycled: `posY` becomes `-size`, a fresh
`x ∈ [0, width)` is sampled and stored in both `posX` and `originX`, and the
phase is resampled from `[0, 2π)`; a particle not past the bottom edge
keeps its moved `posY`, its `originX`, and its advanced phase. -/
theorem C3_recycle_semantics (dt height width rx rp : ℝ) (p : Particle)
    (hw : 0 < width) (hrx0 : 0 ≤ rx) (hrx1 : rx < 1)
    (hrp0 : 0 ≤ rp) (hrp1 : rp < 1) :
    (height < p.posY + p.velY * dt - p.size →
      (advanceParticle dt height width rx rp p).posY = -p.size
      ∧ (advanceParticle dt height width rx rp p).posX
          = (advanceParticle dt height width rx rp p).originX
      ∧ 0 ≤ (advanceParticle dt height width rx rp p).originX
      ∧ (advanceParticle dt height width rx rp p).originX < width
      ∧ 0 ≤ (advanceParticle dt height width rx rp p).dx
      ∧ (advanceParticle dt height width rx rp p).dx < TWO_PI)
    ∧ (¬ height < p.posY + p.velY * dt - p.size →
      (advanceParticle dt height width rx rp p).posY = p.posY + p.velY * dt
      ∧ (advanceParticle dt height width rx rp p).originX = p.originX
      ∧ (advanceParticle dt height width rx rp p).dx
          = (if TWO_PI < p.dx + p.velX * dt then p.dx + p.velX * dt - TWO_PI
             else p.dx + p.velX * dt)) := by
  have hpi := Real.pi_pos
  have h2pi : (0 : ℝ) < TWO_PI := by rw [TWO_PI]; linarith
  constructor
  · intro hrec
    simp only [advanceParticle, resetTop, rand, if_pos hrec]
    refine ⟨trivial, trivial, ?_, ?_, ?_, ?_⟩
    · nlinarith
    · nlinarith
    · nlinarith
    · nlinarith
  · intro hrec
    simp only [advanceParticle, if_neg hrec]
    exact ⟨trivial, trivial, trivial⟩

/-- Witness for C3 at the spec's recycle example (`posY = 1070`,
`fallRate = 80`, `dt = 0.2`, surface height 1080). -/
theorem C3_recycle_semantics_witness :
    (advanceParticle 0.2 1080 1920 (1 / 2) (1 / 2) pRecycleDemo).posY
      = -pRecycleDemo.size :=
  ((C3_recycle_semantics 0.2 1080 1920 (1 / 2) (1 / 2) pRecycleDemo
    (by norm_num) (by norm_num) (by norm_num) (by norm_num) (by norm_num)).1
    (by norm_num [pRecycleDemo])).1

/-- Claim C6 fails on the code: the wraparound test is the strict
`dx > 2π`, so a particle whose phase lands exactly on `2π` (phase 0,
`swingRate·dt = 2π`, no recycle) ends the update with `phase = 2π`, which
is outside `[0, 2π)`, even though its phase was in `[0, 2π)` before. -/
theorem C6_counterexample :
    (0 ≤ pPhaseEdge.dx ∧ pPhaseEdge.dx < TWO_PI)
    ∧ ¬ ((advanceParticle 0.05 100 100 0 0 pPhaseEdge).dx < TWO_PI) := by
  have hpi := Real.pi_pos
  have h2pi : (0 : ℝ) < TWO_PI := by rw [TWO_PI]; linarith
  have heq : (0 : ℝ) + 40 * Real.pi * 0.05 = TWO_PI := by rw [TWO_PI]; ring
  constructor
  · exact ⟨le_rfl, h2pi⟩
  · have hno : ¬ (TWO_PI < (0 : ℝ) + 40 * Real.pi * 0.05) := by
      rw [heq]
      exact lt_irrefl _
    have hdx : (advanceParticle 0.05 100 100 0 0 pPhaseEdge).dx = TWO_PI := by
      simp only [advanceParticle, pPhaseEdge]
      rw [if_neg (by norm_num : ¬ ((100 : ℝ) < 0 + 0 * 0.05 - 1)), if_neg hno]
      exact heq
    rw [hdx]
    exact lt_irrefl TWO_PI

/-- Helper: one particle's phase after `advanceParticle` stays in
`[0, 2π]` provided it starts at a nonnegative phase and the phase
increment `swingRate·dt` is nonnegative and keeps `phase + increment`
within `4π` (so the single conditional subtraction suffices). -/
lemma advance_dx_bound (dt height width rx rp : ℝ) (p : Particle)
    (hrp0 : 0 ≤ rp) (hrp1 : rp < 1) (hdx0 : 0 ≤ p.dx)
    (hinc0 : 0 ≤ p.velX * dt) (hsum : p.dx + p.velX * dt ≤ 2 * TWO_PI) :
    0 ≤ (advanceParticle dt height width rx rp p).dx
    ∧ (advanceParticle dt height width rx rp p).dx ≤ TWO_PI := by
  have hpi := Real.pi_pos
  have h2pi : (0 : ℝ) < TWO_PI := by rw [TWO_PI]; linarith
  by_cases hrec : height < p.posY + p.velY * dt - p.size
  · simp only [advanceParticle, resetTop, rand, if_pos hrec]
    constructor
    · nlinarith
    · nlinarith
  · simp only [advanceParticle, if_neg hrec]
    by_cases hov : TWO_PI < p.dx + p.velX * dt
    · simp only [if_pos hov]
      constructor <;> linarith
    · simp only [if_neg hov]
      constructor <;> linarith

/-- Claim C6 as amended: after `update`, every particle's phase lies in the
closed interval `[0, 2π]` (the right endpoint is attained exactly when the
advanced phase lands on `2π` or `4π`), given that before the tick every
phase is nonnegative, every phase increment `swingRate·dt` is nonnegative
and keeps `phase + increment ≤ 4π`, and the recycle phase draws lie in
`[0, 1)`. -/
theorem C6_phase_bound (dt height width : ℝ) (rnd : ℕ → ℝ × ℝ)
    (hrnd : ∀ i, 0 ≤ (rnd i).2 ∧ (rnd i).2 < 1) (ps : List Particle)
    (hps : ∀ p ∈ ps,
      0 ≤ p.dx ∧ 0 ≤ p.velX * dt ∧ p.dx + p.velX * dt ≤ 2 * TWO_PI)
    (i : ℕ) :
    ∀ q ∈ update dt height width rnd i ps, 0 ≤ q.dx ∧ q.dx ≤ TWO_PI := by
  induction ps generalizing i with
  | nil =>
    intro q hq
    simp [update] at hq
  | cons p ps ih =>
    intro q hq
    simp only [update, List.mem_cons] at hq
    rcases hq with hq | hq
    · subst hq
      obtain ⟨h1, h2, h3⟩ := hps p (List.mem_cons_self p ps)
      exact advance_dx_bound dt height width (rnd i).1 (rnd i).2 p
        (hrnd i).1 (hrnd i).2 h1 h2 h3
    · exact ih (fun p' hp' => hps p' (List.mem_cons_of_mem _ hp')) (i + 1) q hq

/-- Witness for the amended C6 on a one-particle store. -/
theorem C6_phase_bound_witness :
    0 ≤ (advanceParticle 0.01 100 100 0 0 pSlowSwing).dx
    ∧ (advanceParticle 0.01 100 100 0 0 pSlowSwing).dx ≤ TWO_PI := by
  refine C6_phase_bound 0.01 100 100 (fun _ => (0, 0))
    (fun i => ⟨le_rfl, one_pos⟩) [pSlowSwing] ?_ 0 _ ?_
  · intro p hp
    rw [List.mem_singleton] at hp
    subst hp
    refine ⟨le_rfl, by norm_num [pSlowSwing], ?_⟩
    simp only [pSlowSwing, TWO_PI]
    nlinarith [Real.pi_gt_three]
  · simp [update]

/-- Helper: element `j` of the updated store depends only on element `j`
of the input store (the per-index map uses the `j`-th random pair). -/
lemma update_getElem? (dt height width : ℝ) (rnd : ℕ → ℝ × ℝ) :
    ∀ (i j : ℕ) (ps : List Particle),
      (update dt height width rnd i ps)[j]?
        = (ps[j]?).map (fun q =>
            advanceParticle dt height width (rnd (i + j)).1 (rnd (i + j)).2 q) := by
  intro i j ps
  induction ps generalizing i j with
  | nil => simp [update]
  | cons p ps ih =>
    cases j with
    | zero => simp [update]
    | succ j =>
      simp only [update, List.getElem?_cons_succ]
      rw [ih (i + 1) j, show i + 1 + j = i + (j + 1) by omega]

/-- Claim C8: recycling (`resetTop`) changes only position and phase —
`size`, `amplitude`, `swingRate` and `fallRate` are preserved — and the
update of the store is a per-index map, so processing (and possibly
recycling) particle `j` never touches any other slot: slot `j` of the
output is a function of slot `j` of the input alone. -/
theorem C8_recycle_frame_effect (width rx rp dt height : ℝ) (p : Particle)
    (rnd : ℕ → ℝ × ℝ) (ps : List Particle) (j : ℕ) :
    (resetTop width rx rp p).size = p.size
    ∧ (resetTop width rx rp p).amplitude = p.amplitude
    ∧ (resetTop width rx rp p).velX = p.velX
    ∧ (resetTop width rx rp p).velY = p.velY
    ∧ (update dt height width rnd 0 ps)[j]?
        = (ps[j]?).map (fun q =>
            advanceParticle dt height width (rnd j).1 (rnd j).2 q) := by
  refine ⟨rfl, rfl, rfl, rfl, ?_⟩
  have h := update_getElem? dt height width rnd 0 j ps
  simpa using h

/-! ## Fast-sine theorems -/

/-- Helper: wrapping into int32 range is the identity on values already in
`[-2^31, 2^31)`. -/
lemma bmod_small {z : ℤ} (h1 : -(2 ^ 31) ≤ z) (h2 : z < 2 ^ 31) :
    Int.bmod z (2 ^ 32) = z := by
  simp only [Int.bmod]
  split <;> omega

/-- Helper: `x | 0` is `⌊x⌋` for `x ∈ [0, 2^31)`. -/
lemma toInt32_eq_floor {x : ℝ} (h0 : 0 ≤ x) (hlt : x < 2 ^ 31) :
    toInt32 x = ⌊x⌋ := by
  rw [toInt32, jsTrunc, if_pos h0]
  apply bmod_small
  · have := Int.floor_nonneg.mpr h0
    omega
  · exact Int.floor_lt.mpr (by exact_mod_cast hlt)

/-- Helper: for nonnegative inputs whose scaled index fits in int32,
`fastSin` returns the nearest-sample interpolation. -/
lemma fastSin_eq_interp_nonneg (x : ℝ) (h0 : 0 ≤ x)
    (hlt : x * (2048 / TWO_PI) < 2 ^ 31) :
    fastSin x = sineInterpNearest x := by
  have hpi := Real.pi_pos
  have h2pi : (0 : ℝ) < TWO_PI := by rw [TWO_PI]; linarith
  have hc : (0 : ℝ) < 2048 / TWO_PI := by positivity
  simp only [fastSin, sineInterpNearest, SIN_TABLE_SIZE, Nat.cast_ofNat]
  rw [if_neg (not_lt.mpr h0)]
  set c := (2048 : ℝ) / TWO_PI with hcdef
  set k := ⌊x / TWO_PI⌋ with hk
  set m := ⌊x * c⌋ with hm
  have hscaled0 : 0 ≤ x * c := mul_nonneg h0 hc.le
  have hm0 : 0 ≤ m := Int.floor_nonneg.mpr hscaled0
  have hTc : TWO_PI * c = 2048 := by
    rw [hcdef]
    field_simp
  have hk1 : (k : ℝ) * TWO_PI ≤ x := by
    have h := Int.floor_le (x / TWO_PI)
    rw [← hk] at h
    exact (le_div_iff h2pi).mp h
  have hk2 : x < ((k : ℝ) + 1) * TWO_PI := by
    have h := Int.lt_floor_add_one (x / TWO_PI)
    rw [← hk] at h
    exact (div_lt_iff h2pi).mp h
  have hxn0 : 0 ≤ x - TWO_PI * (k : ℝ) := by nlinarith
  have hxn2 : x - TWO_PI * (k : ℝ) < TWO_PI := by nlinarith
  have hs : (x - TWO_PI * (k : ℝ)) * c = x * c - ((2048 * k : ℤ) : ℝ) := by
    push_cast
    linear_combination (-(k : ℝ)) * hTc
  have hi : ⌊(x - TWO_PI * (k : ℝ)) * c⌋ = m - 2048 * k := by
    rw [hs, hm]
    exact Int.floor_sub_int (x * c) (2048 * k)
  have hs0 : 0 ≤ (x - TWO_PI * (k : ℝ)) * c := mul_nonneg hxn0 hc.le
  have hs2 : (x - TWO_PI * (k : ℝ)) * c < 2048 :=
    lt_of_lt_of_eq (mul_lt_mul_of_pos_right hxn2 hc) hTc
  have hi0 : 0 ≤ m - 2048 * k := by
    rw [← hi]
    exact Int.floor_nonneg.mpr hs0
  have hi2 : m - 2048 * k < 2048 := by
    rw [← hi]
    exact Int.floor_lt.mpr (by push_cast; linarith)
  have hidx : toInt32 (x * c) = m := toInt32_eq_floor hscaled0 hlt
  have hfrac : (x - TWO_PI * (k : ℝ)) * c - ((m - 2048 * k : ℤ) : ℝ)
      = x * c - (m : ℝ) := by
    push_cast at hs ⊢
    linear_combination hs
  have ha : ((m - 2048 * k).toNat % 2048) = (m % 2048).toNat := by omega
  have hb : ((m - 2048 * k).toNat + 1) % 2048 = ((m + 1) % 2048).toNat := by
    omega
  rw [hidx, hi, hfrac, ha, hb]

/-- Helper: the nearest-sample interpolation has period `2π`. -/
lemma sineInterpNearest_add_period (x : ℝ) :
    sineInterpNearest (x + TWO_PI) = sineInterpNearest x := by
  have hpi := Real.pi_pos
  have h2pi : (0 : ℝ) < TWO_PI := by rw [TWO_PI]; linarith
  simp only [sineInterpNearest]
  have hdiv : (x + TWO_PI) / TWO_PI = x / TWO_PI + 1 := by
    field_simp
  rw [hdiv, Int.floor_add_one]
  have hsame : x + TWO_PI - TWO_PI * ((⌊x / TWO_PI⌋ + 1 : ℤ) : ℝ)
      = x - TWO_PI * ((⌊x / TWO_PI⌋ : ℤ) : ℝ) := by
    push_cast
    ring
  rw [hsame]

/-- Claim C9 as amended: for `-2π ≤ x < 2^20·2π` (the range where a single
period addition normalizes a negative input and the int32 truncation of
the scaled index does not overflow), `fastSin x` equals the linear
interpolation of the two nearest table samples at `x` reduced mod `2π`,
with the upper index wrapped modulo 2048. -/
theorem C9_fastSin_interp (x : ℝ) (hlo : -TWO_PI ≤ x)
    (hhi : x < 2 ^ 20 * TWO_PI) :
    fastSin x = sineInterpNearest x := by
  have hpi := Real.pi_pos
  have h2pi : (0 : ℝ) < TWO_PI := by rw [TWO_PI]; linarith
  have hc : (0 : ℝ) < 2048 / TWO_PI := by positivity
  have hconv : (2 : ℝ) ^ 20 * TWO_PI * (2048 / TWO_PI) = 2 ^ 31 := by
    field_simp
    ring
  by_cases hneg : x < 0
  · have h0 : 0 ≤ x + TWO_PI := by linarith
    have hx2 : (x + TWO_PI) * (2048 / TWO_PI) < 2 ^ 31 := by
      have hlt2 : x + TWO_PI < TWO_PI := by linarith
      have : (x + TWO_PI) * (2048 / TWO_PI) < TWO_PI * (2048 / TWO_PI) :=
        mul_lt_mul_of_pos_right hlt2 hc
      have h2048 : TWO_PI * (2048 / TWO_PI) = 2048 := by field_simp
      nlinarith
    have h1 : fastSin x = fastSin (x + TWO_PI) := by
      simp only [fastSin]
      rw [if_pos hneg, if_neg (not_lt.mpr h0)]
    rw [h1, ← sineInterpNearest_add_period x]
    exact fastSin_eq_interp_nonneg (x + TWO_PI) h0 hx2
  · have h0 : 0 ≤ x := not_lt.mp hneg
    apply fastSin_eq_interp_nonneg x h0
    calc x * (2048 / TWO_PI) < 2 ^ 20 * TWO_PI * (2048 / TWO_PI) :=
          mul_lt_mul_of_pos_right hhi hc
      _ = 2 ^ 31 := hconv

/-- Witness for the amended C9 at `x = 0`. -/
theorem C9_fastSin_interp_witness : fastSin 0 = sineInterpNearest 0 :=
  C9_fastSin_interp 0 (by rw [TWO_PI]; nlinarith [Real.pi_pos])
    (by rw [TWO_PI]; positivity)

/-- Helper: table sample 1536 is `sin(3π/2) = -1`. -/
lemma sin_table_1536 : SIN_TABLE 1536 = -1 := by
  simp only [SIN_TABLE, SIN_TABLE_SIZE, Nat.cast_ofNat, TWO_PI]
  rw [show (1536 : ℝ) / 2048 * (Real.pi * 2) = Real.pi / 2 + Real.pi by ring,
    Real.sin_add_pi, Real.sin_pi_div_two]

/-- Helper: table sample 1537 is `sin(3π/2 + π/1024) = -cos(π/1024)`. -/
lemma sin_table_1537 : SIN_TABLE 1537 = -Real.cos (Real.pi / 1024) := by
  simp only [SIN_TABLE, SIN_TABLE_SIZE, Nat.cast_ofNat, TWO_PI]
  rw [show (1537 : ℝ) / 2048 * (Real.pi * 2)
      = Real.pi / 2 + Real.pi / 1024 + Real.pi by ring,
    Real.sin_add_pi, Real.sin_add, Real.sin_pi_div_two, Real.cos_pi_div_two]
  ring

/-- Helper: table sample 1535 is `sin(3π/2 - π/1024) = -cos(π/1024)`. -/
lemma sin_table_1535 : SIN_TABLE 1535 = -Real.cos (Real.pi / 1024) := by
  simp only [SIN_TABLE, SIN_TABLE_SIZE, Nat.cast_ofNat, TWO_PI]
  rw [show (1535 : ℝ) / 2048 * (Real.pi * 2)
      = Real.pi / 2 - Real.pi / 1024 + Real.pi by ring,
    Real.sin_add_pi, Real.sin_pi_div_two_sub]

/-- Helper: at `x = -(5121/2048)·π` (below `-2π`), the single-period
normalization leaves a negative scaled index `-512.5`; the int32 truncation
rounds it toward zero and the masked indices `1536, 1537` do not bracket
the normalized position, so `fastSin` extrapolates:
`fastSin x = (cos(π/1024) - 3)/2`, which is below `-1`. -/
lemma fastSin_at_neg : fastSin (-(5121 / 2048) * Real.pi)
    = (Real.cos (Real.pi / 1024) - 3) / 2 := by
  have hpi := Real.pi_pos
  have hneg : (-(5121 / 2048) * Real.pi : ℝ) < 0 := by nlinarith
  simp only [fastSin, SIN_TABLE_SIZE, Nat.cast_ofNat]
  rw [if_pos hneg]
  have hnorm : (-(5121 / 2048) * Real.pi + TWO_PI) * (2048 / TWO_PI)
      = -(1025 / 2) := by
    rw [TWO_PI]
    field_simp
    ring
  rw [hnorm]
  have hfl : ⌊(1025 / 2 : ℝ)⌋ = 512 := by
    rw [Int.floor_eq_iff]
    constructor <;> norm_num
  have htr : toInt32 (-(1025 / 2) : ℝ) = -512 := by
    rw [toInt32, jsTrunc, if_neg (by norm_num),
      show (-(-(1025 / 2) : ℝ)) = 1025 / 2 by norm_num, hfl]
    exact bmod_small (by norm_num) (by norm_num)
  rw [htr]
  rw [show ((-512 : ℤ) % 2048).toNat = 1536 by omega,
    show (((-512 : ℤ) + 1) % 2048).toNat = 1537 by omega,
    sin_table_1536, sin_table_1537]
  push_cast
  ring

/-- Helper: the nearest-sample interpolation at the same input is
`(-cos(π/1024) - 1)/2`, a convex combination of the two samples that
actually bracket the normalized position. -/
lemma sineInterpNearest_at_neg :
    sineInterpNearest (-(5121 / 2048) * Real.pi)
      = (-Real.cos (Real.pi / 1024) - 1) / 2 := by
  have hpi := Real.pi_pos
  simp only [sineInterpNearest, SIN_TABLE_SIZE, Nat.cast_ofNat]
  have hq : (-(5121 / 2048) * Real.pi) / TWO_PI = -(5121 / 4096) := by
    rw [TWO_PI]
    field_simp
    ring
  rw [hq]
  have hk : ⌊(-(5121 / 4096) : ℝ)⌋ = -2 := by
    rw [Int.floor_eq_iff]
    constructor <;> norm_num
  rw [hk]
  have hxn : (-(5121 / 2048) * Real.pi - TWO_PI * ((-2 : ℤ) : ℝ))
      * (2048 / TWO_PI) = 3071 / 2 := by
    rw [TWO_PI]
    push_cast
    field_simp
    ring
  rw [hxn]
  have hi : ⌊(3071 / 2 : ℝ)⌋ = 1535 := by
    rw [Int.floor_eq_iff]
    constructor <;> norm_num
  rw [hi,
    show ((1535 : ℤ).toNat % 2048) = 1535 by omega,
    show (((1535 : ℤ).toNat + 1) % 2048) = 1536 by omega,
    sin_table_1535, sin_table_1536]
  push_cast
  ring

/-- Claim C9 fails on the code: for `x = -(5121/2048)·π < -2π`, adding a
single period does not normalize the input into `[0, 2π)`, and `fastSin`
does not return the interpolation of the two nearest samples (it
extrapolates from the wrong sample pair, yielding `(cos(π/1024) - 3)/2`
instead of `(-cos(π/1024) - 1)/2`; the two differ by `1 - cos(π/1024) > 0`,
far above the claimed interpolation error bound, and the returned value
even lies below `-1`). -/
theorem C9_counterexample :
    fastSin (-(5121 / 2048) * Real.pi)
      ≠ sineInterpNearest (-(5121 / 2048) * Real.pi) := by
  have hpi := Real.pi_pos
  rw [fastSin_at_neg, sineInterpNearest_at_neg]
  intro h
  have hcos1 : Real.cos (Real.pi / 1024) = 1 := by linarith
  have hzero : Real.pi / 1024 = 0 := by
    refine (Real.cos_eq_one_iff_of_lt_of_lt ?_ ?_).mp hcos1
    · nlinarith
    · nlinarith
  nlinarith

end Snowfall
